import Mathlib

/-
Verification of the clockify-auto-fill repository against its natural-language
specification.  The TypeScript sources are shallowly embedded as executable
Lean definitions: dates are concrete year/month/day triples over the proleptic
Gregorian calendar, asynchronous remote calls become calls into an explicit
environment carrying per-date failure oracles, the SQLite-backed persistence
layer becomes explicit state passing over lists of rows, and JavaScript
exceptions become `Except` values.  Promise.all over a batch is modelled as a
left-to-right effectful map: it succeeds with all results when every sibling
call succeeds and otherwise propagates an error, exactly the observable
behaviour of the code (which awaits the whole batch and rethrows a rejection).
-/

namespace ClockifyAutoFill

/-- Calendar date, the embedding of the canonical `YYYY-MM-DD` strings used
throughout the repository (`src/utils/dateUtils.ts` parses them with dayjs). -/
structure Date where
  y : Nat
  m : Nat
  d : Nat
deriving DecidableEq, Repr

/-- Gregorian leap-year test. -/
def isLeapYear (y : Nat) : Bool :=
  (y % 4 == 0 && y % 100 != 0) || (y % 400 == 0)

/-- Number of days in a month (dayjs `endOf('month')`). -/
def daysInMonth (y m : Nat) : Nat :=
  if m == 2 then (if isLeapYear y then 29 else 28)
  else if m == 4 || m == 6 || m == 9 || m == 11 then 30
  else 31

/-- Days elapsed since the civil epoch (proleptic Gregorian, valid for
year at least 1).  Standard days-from-civil computation; it gives
`toDays ⟨1970,1,1⟩ = 719468`. -/
def toDays (dt : Date) : Nat :=
  let yy := if dt.m ≤ 2 then dt.y - 1 else dt.y
  let era := yy / 400
  let yoe := yy % 400
  let mp := (dt.m + 9) % 12
  let doy := (153 * mp + 2) / 5 + dt.d - 1
  let doe := yoe * 365 + yoe / 4 - yoe / 100 + doy
  era * 146097 + doe

/-- Day of week as dayjs `.day()` reports it: 0 = Sunday … 6 = Saturday. -/
def dayOfWeek (dt : Date) : Nat :=
  (toDays dt + 3) % 7

/-- Embedding of `isWeekday` from `src/utils/dateUtils.ts`: Monday (1) through
Friday (5). -/
def isWeekday (dt : Date) : Bool :=
  1 ≤ dayOfWeek dt && dayOfWeek dt ≤ 5

/-- Previous calendar day (dayjs `subtract(1, 'day')`). -/
def predDate (dt : Date) : Date :=
  if dt.d > 1 then ⟨dt.y, dt.m, dt.d - 1⟩
  else if dt.m > 1 then ⟨dt.y, dt.m - 1, daysInMonth dt.y (dt.m - 1)⟩
  else ⟨dt.y - 1, 12, 31⟩

/-- Next calendar day (dayjs `add(1, 'day')`). -/
def succDate (dt : Date) : Date :=
  if dt.d < daysInMonth dt.y dt.m then ⟨dt.y, dt.m, dt.d + 1⟩
  else if dt.m < 12 then ⟨dt.y, dt.m + 1, 1⟩
  else ⟨dt.y + 1, 1, 1⟩

/-- Iterated successor used to enumerate a date range. -/
def dateRangeFrom : Nat → Date → List Date
  | 0, _ => []
  | n + 1, c => c :: dateRangeFrom n (succDate c)

/-- Embedding of `getDateRange` from `src/utils/dateUtils.ts`: all days from
`a` to `b` inclusive (empty when `b` precedes `a`). -/
def getDateRange (a b : Date) : List Date :=
  dateRangeFrom (toDays b + 1 - toDays a) a

/-- First day of the month preceding the month of `dt`
(dayjs `subtract(1,'month').startOf('month')`). -/
def startOfPreviousMonth (dt : Date) : Date :=
  if dt.m > 1 then ⟨dt.y, dt.m - 1, 1⟩ else ⟨dt.y - 1, 12, 1⟩

/-- The walk in `isLastBusinessDayOfMonth`: step back from a date while it is
not a weekday.  The source uses an unbounded while loop; at most two
consecutive days are non-weekdays, so fuel 7 is more than enough. -/
def lastWeekdayFrom : Nat → Date → Date
  | 0, c => c
  | n + 1, c => if isWeekday c then c else lastWeekdayFrom n (predDate c)

/-- Embedding of `isLastBusinessDayOfMonth` from `src/utils/dateUtils.ts`:
start from the calendar end of the month and walk back over non-weekdays,
then compare with the given date.  Note that this function consults only the
day of week, never the holiday calendar. -/
def isLastBusinessDayOfMonth (dt : Date) : Bool :=
  lastWeekdayFrom 7 ⟨dt.y, dt.m, daysInMonth dt.y dt.m⟩ == dt

/-- Result of one `date-holidays` lookup as the repository consumes it:
`error` when the library throws, `ok none` for the literal `false` it returns
on non-holidays, and `ok (some names)` for an array of matching holidays.
The calendar itself is an external collaborator, so it stays a parameter. -/
def HolidayLookup : Type :=
  Date → Except Unit (Option (List String))

/-- Embedding of `HolidayService.isHoliday` from `src/services/holiday.ts`:
the library answer must differ from `false` and be a non-empty array; a thrown
lookup error is caught and reported as `false`. -/
def isHoliday (hol : HolidayLookup) (dt : Date) : Bool :=
  match hol dt with
  | .error _ => false
  | .ok none => false
  | .ok (some l) => !l.isEmpty

/-- Embedding of `HolidayService.getHolidayName`: the first matching holiday
name, with thrown errors caught and reported as `none`. -/
def getHolidayName (hol : HolidayLookup) (dt : Date) : Option String :=
  match hol dt with
  | .error _ => none
  | .ok none => none
  | .ok (some l) => l.head?

/-- Embedding of `BusinessDayService.isBusinessDay` from
`src/utils/businessDay.ts`. -/
def isBusinessDay (hol : HolidayLookup) (dt : Date) : Bool :=
  if !isWeekday dt then false
  else if isHoliday hol dt then false
  else true

/-- Embedding of `BusinessDayService.getSkipReason`. -/
def getSkipReason (hol : HolidayLookup) (dt : Date) : Option String :=
  if !isWeekday dt then some "Weekend"
  else
    match getHolidayName hol dt with
    | some n => some ("Holiday: " ++ n)
    | none => none

/-- Result shape of `BusinessDayService.shouldSkipDate`. -/
structure SkipResult where
  skip : Bool
  reason : Option String
deriving DecidableEq, Repr

/-- Embedding of `BusinessDayService.shouldSkipDate`. -/
def shouldSkipDate (hol : HolidayLookup) (dt : Date) : SkipResult :=
  let r := getSkipReason hol dt
  ⟨r != none, r⟩

/-- Error taxonomy of the remote client as the repository surfaces it
(`src/services/clockify.ts` catch blocks): authentication failures, remote
validation failures (HTTP 400 with message), transient network failures, and
anything else rethrown as-is. -/
inductive Err where
  | auth (msg : String)
  | validation (msg : String)
  | transient (msg : String)
  | other (msg : String)
deriving DecidableEq, Repr

/-- Message attached to an error. -/
def errMessage : Err → String
  | .auth m => m
  | .validation m => m
  | .transient m => m
  | .other m => m

/-- Failure a remote HTTP call can produce, before the client maps it into
`Err`. -/
inductive RemoteFailure where
  | unauthorized
  | badRequest (msg : String)
  | netFail (msg : String)
deriving DecidableEq, Repr

/-- Configuration fields of `ClockifyService` after its constructor ran
(`src/services/clockify.ts` lines 59-69): the default times already carry
the `'09:00'` / `'17:00'` fallbacks. -/
structure Config where
  defaultStartTime : String
  defaultEndTime : String
  projectId : String
  workspaceId : String
  reportDirSet : Bool
deriving DecidableEq, Repr

/-- Splitting a character list on `:`, the `timeStr.split(':')` step of
`ClockifyService.parseTime`. -/
def splitColon : List Char → List (List Char)
  | [] => [[]]
  | c :: rest =>
    if c = ':' then [] :: splitColon rest
    else
      match splitColon rest with
      | seg :: segs => (c :: seg) :: segs
      | [] => [[c]]

/-- Value of a leading run of decimal digits, the `parseInt(s, 10)` step of
`ClockifyService.parseTime` (an empty or non-numeric field contributes 0). -/
def digitsVal : List Char → Nat → Nat
  | [], acc => acc
  | c :: rest, acc =>
    if c.isDigit then digitsVal rest (acc * 10 + (c.toNat - 48)) else acc

/-- Embedding of `ClockifyService.parseTime` (lines 237-243): split on `:`
and parse the hour and minute fields as base-10 integers. -/
def parseTime (s : String) : Nat × Nat :=
  (digitsVal ((splitColon s.data).headD []) 0,
    digitsVal (((splitColon s.data).drop 1).headD []) 0)

/-- Payload built by `ClockifyService.createTimeEntry`: both instants fall on
the same calendar day, so they are represented by that day plus minutes since
midnight. -/
structure TimeEntry where
  description : String
  date : Date
  startMin : Nat
  endMin : Nat
  billable : Bool
deriving DecidableEq, Repr

/-- Embedding of `ClockifyService.createTimeEntry` (lines 245-261): explicit
start/end times win over the configured defaults (a JavaScript falsy check, so
an empty string also falls back), both are parsed as `HH:mm` and applied to
the given date, and billable is always false. -/
def createTimeEntry (cfg : Config) (date : Date) (description : String)
    (startTime endTime : Option String) : TimeEntry :=
  let startStr := match startTime with
    | some s => if s = "" then cfg.defaultStartTime else s
    | none => cfg.defaultStartTime
  let endStr := match endTime with
    | some s => if s = "" then cfg.defaultEndTime else s
    | none => cfg.defaultEndTime
  let sp := parseTime startStr
  let ep := parseTime endStr
  ⟨description, date, sp.1 * 60 + sp.2, ep.1 * 60 + ep.2, false⟩

/-- Stored row of the `tasks` table (`src/services/database.ts` schema):
id, start date, project, description.  Timestamps are irrelevant to every
claim and are omitted. -/
structure TaskRow where
  id : Nat
  startDate : Date
  project : String
  description : String
deriving DecidableEq, Repr

/-- Task assignment as `getTasks` returns it: a stored row together with the
derived end date. -/
structure TaskWithEnd where
  id : Nat
  startDate : Date
  project : String
  description : String
  endDate : Option Date
deriving DecidableEq, Repr

/-- Insertion step of the sort in `calculateEndDates`
(`tasks.sort((a, b) => dayjs(a.startDate).diff(dayjs(b.startDate)))`). -/
def insertTask (t : TaskRow) : List TaskRow → List TaskRow
  | [] => [t]
  | u :: rest =>
    if toDays t.startDate ≤ toDays u.startDate then t :: u :: rest
    else u :: insertTask t rest

/-- Sort task rows by start date ascending, the comparator of
`calculateEndDates`. -/
def sortTasks : List TaskRow → List TaskRow
  | [] => []
  | t :: rest => insertTask t (sortTasks rest)

/-- Mapping step of `calculateEndDates` (`src/services/persistence.ts` lines
215-223): every task except the last gets one day before the next task's
start date; the last task gets today. -/
def assignEnds (today : Date) : List TaskRow → List TaskWithEnd
  | [] => []
  | [t] => [⟨t.id, t.startDate, t.project, t.description, some today⟩]
  | t :: u :: rest =>
    ⟨t.id, t.startDate, t.project, t.description, some (predDate u.startDate)⟩ ::
      assignEnds today (u :: rest)

/-- Embedding of `PersistenceService.calculateEndDates` (lines 210-224):
sort the rows by start date, then derive end dates positionally.  The value
`today` stands for the `dayjs()` call inside. -/
def calculateEndDates (today : Date) (rows : List TaskRow) : List TaskWithEnd :=
  assignEnds today (sortTasks rows)

/-- Embedding of `PersistenceService.getTasks` (lines 70-85): read all rows
(the SQL `ORDER BY start_date ASC` is subsumed by the sort inside
`calculateEndDates`) and derive end dates at read time. -/
def getTasks (today : Date) (rows : List TaskRow) : List TaskWithEnd :=
  calculateEndDates today rows

/-- Covering test of `PersistenceService.getTaskForDate` (lines 91-99): the
date is on the start day, strictly between start and end, or on the end day;
a missing end date stands for today. -/
def taskCovers (today : Date) (d : Date) (t : TaskWithEnd) : Bool :=
  let te := match t.endDate with
    | some e => e
    | none => today
  toDays d == toDays t.startDate ||
    (toDays t.startDate < toDays d && toDays d < toDays te) ||
    toDays d == toDays te

/-- Embedding of `PersistenceService.getTaskForDate` (lines 87-100). -/
def getTaskForDate (today : Date) (rows : List TaskRow) (d : Date) :
    Option TaskWithEnd :=
  (getTasks today rows).find? (taskCovers today d)

/-- Stored row of the `time_entries` table, the local ledger's record of an
entry the system created (`src/services/persistence.ts` TimeEntryRecord). -/
structure TimeEntryRecord where
  clockifyId : Nat
  date : Date
  description : String
  startMin : Nat
  endMin : Nat
  durationMinutes : Nat
  projectId : String
  workspaceId : String
deriving DecidableEq, Repr

/-- State of the local SQLite store: the two tables plus the autoincrement
counter of `tasks`. -/
structure Ledger where
  tasks : List TaskRow
  nextTaskId : Nat
  entries : List TimeEntryRecord
deriving DecidableEq, Repr

/-- Embedding of `PersistenceService.addTask` (lines 46-68), the task
upsert: when a row with this start date exists, update its project and
description in place and return the existing id; otherwise insert a fresh
row and return its newly assigned id. -/
def addTask (led : Ledger) (startDate : Date) (project description : String) :
    Nat × Ledger :=
  match led.tasks.find? (fun r => r.startDate == startDate) with
  | some r =>
    (r.id,
      { led with
        tasks := led.tasks.map (fun x =>
          if x.startDate == startDate then
            { x with project := project, description := description }
          else x) })
  | none =>
    (led.nextTaskId,
      { led with
        tasks := led.tasks ++ [⟨led.nextTaskId, startDate, project, description⟩],
        nextTaskId := led.nextTaskId + 1 })

/-- Embedding of `PersistenceService.addTimeEntry`: insert a ledger record. -/
def addTimeEntryRecord (led : Ledger) (r : TimeEntryRecord) : Ledger :=
  { led with entries := led.entries ++ [r] }

/-- Environment of one run: the remote service state and behaviour plus the
fixed configuration.  `remote` lists the dates that currently have a remote
entry; `checkFail` and `createFail` are per-date failure oracles for the two
kinds of remote call; `jira` is the issue-tracker configuration and outcome
(`none` when Jira is not configured, otherwise the result of
`getCurrentTasks`, a list of issue summaries). -/
structure Env where
  cfg : Config
  holiday : HolidayLookup
  remote : List Date
  nextEntryId : Nat
  checkFail : Date → Option Err
  createFail : Date → Option RemoteFailure
  jira : Option (Except Err (List String))

/-- Embedding of `ClockifyService.hasEntryForDate` (lines 163-166 composed
with `getTimeEntriesForDate`): true iff at least one remote entry exists on
that day; a failing underlying request propagates as an error. -/
def hasEntryForDate (env : Env) (d : Date) : Except Err Bool :=
  match env.checkFail d with
  | some e => .error e
  | none => .ok (env.remote.contains d)

/-- Modelled from the spec: the remote time-tracking service itself is not
part of this repository, only its HTTP client is.  Per sections 4.2 and 8 it
"must reject (fail) if end is not strictly after start", surfaced as a
400-equivalent with a validation message; other failures come from the
per-date oracle, and a successful create assigns the next remote id. -/
def remotePostTimeEntry (env : Env) (te : TimeEntry) : Except RemoteFailure Nat :=
  if te.endMin ≤ te.startMin then .error (.badRequest "TIME_ENTRY_INVALID")
  else
    match env.createFail te.date with
    | some f => .error f
    | none => .ok env.nextEntryId

/-- Mapping of raw HTTP failures into the surfaced error taxonomy, the catch
block of `ClockifyService.addTimeEntry` (lines 121-132): 401 becomes an
authentication error, 400 becomes a validation error carrying the remote
message, anything else is rethrown as a transient failure. -/
def mapRemoteFailure : RemoteFailure → Err
  | .unauthorized => .auth "Clockify authentication failed. Please check your API key."
  | .badRequest m => .validation ("Invalid time entry data: " ++ m)
  | .netFail m => .transient m

/-- Embedding of `ClockifyService.addTimeEntry` (lines 103-133): post the
entry and translate failures through the catch block. -/
def addTimeEntry (env : Env) (te : TimeEntry) : Except Err Nat :=
  match remotePostTimeEntry env te with
  | .ok id => .ok id
  | .error f => .error (mapRemoteFailure f)

/-- Existence-check phase of `fillMissingEntries` (part_010 lines 107-131).
The code partitions the dates into batches of 10 and awaits a `Promise.all`
per batch with a delay in between; observably this is an effectful map that
returns all results when every check succeeds and propagates an error as soon
as one check rejects (`Promise.all` rejection, modelled as the first failing
date in order). -/
def checkPhase (env : Env) : List Date → Except Err (List (Date × Bool))
  | [] => .ok []
  | d :: rest =>
    match hasEntryForDate env d with
    | .error e => .error e
    | .ok b =>
      match checkPhase env rest with
      | .error e => .error e
      | .ok rs => .ok ((d, b) :: rs)

/-- Per-date outcome of the creation phase, mirroring the objects returned
from the per-date closures in part_010 lines 171-203. -/
structure CreateResult where
  date : Date
  success : Bool
  error : Option String
deriving DecidableEq, Repr

/-- Title of the one-shot Jira pre-fetch in `fillMissingEntries` (part_010
lines 143-156): the first task's summary when Jira is configured and the
lookup succeeds with a non-empty list, otherwise null. -/
def jiraPrefetchTitle (env : Env) : Option String :=
  match env.jira with
  | some (.ok (t :: _)) => some t
  | _ => none

/-- Description resolution for a gap date (part_010 lines 174-175): a stored
task assignment covering the date wins, else the pre-fetched Jira title
(JavaScript `||`, so an empty title also falls through), else the literal
fallback. -/
def resolveGapDescription (env : Env) (led : Ledger) (today d : Date) : String :=
  match getTaskForDate today led.tasks d with
  | some t => t.description
  | none =>
    match jiraPrefetchTitle env with
    | some t => if t = "" then "General work" else t
    | none => "General work"

/-- Payload of the gap-fill create call for one date (part_010 lines
174-177): resolved description, derived default times, billable false. -/
def gapTimeEntry (env : Env) (led : Ledger) (today d : Date) : TimeEntry :=
  createTimeEntry env.cfg d (resolveGapDescription env led today d) none none

/-- Per-date creation step of `fillMissingEntries` (part_010 lines 171-203):
resolve the description, build the payload from the configured defaults, call
the remote create, and on success immediately record the entry in the local
ledger.  The surrounding try/catch turns any error into a per-date failure
result, so this step is total and never mutates anything on failure. -/
def createOneEntry (env : Env) (led : Ledger) (today d : Date) :
    Env × Ledger × CreateResult :=
  match addTimeEntry env (gapTimeEntry env led today d) with
  | .ok id =>
    ({ env with remote := d :: env.remote, nextEntryId := env.nextEntryId + 1 },
      addTimeEntryRecord led
        ⟨id, d, resolveGapDescription env led today d,
          (gapTimeEntry env led today d).startMin,
          (gapTimeEntry env led today d).endMin,
          (gapTimeEntry env led today d).endMin -
            (gapTimeEntry env led today d).startMin,
          env.cfg.projectId, env.cfg.workspaceId⟩,
      ⟨d, true, none⟩)
  | .error e => (env, led, ⟨d, false, some (errMessage e)⟩)

/-- Creation phase of `fillMissingEntries` (part_010 lines 158-216).  The
code runs batches of 5 with a delay in between; each per-date closure carries
its own try/catch, so every date yields a result and the phase as a whole
never throws.  Batching does not change any per-date outcome, so the phase is
the sequential composition of the per-date steps. -/
def creationPhase (env : Env) (led : Ledger) (today : Date) :
    List Date → Env × Ledger × List CreateResult
  | [] => (env, led, [])
  | d :: rest =>
    let step := createOneEntry env led today d
    let further := creationPhase step.1 step.2.1 today rest
    (further.1, further.2.1, step.2.2 :: further.2.2)

/-- Summary counts printed at the end of `fillMissingEntries` (part_010
lines 218-221). -/
structure Summary where
  checked : Nat
  missing : Nat
  added : Nat
deriving DecidableEq, Repr

/-- Outcome of one gap-fill run: the final remote/ledger state together with
either the summary or the error that aborted the run. -/
structure GapOutcome where
  env : Env
  ledger : Ledger
  outcome : Except Err Summary

/-- Eligible dates of a window: weekdays whose skip check passes (part_010
lines 94-102). -/
def eligibleDates (hol : HolidayLookup) (window : List Date) : List Date :=
  (window.filter isWeekday).filter (fun d => !(shouldSkipDate hol d).skip)

/-- Candidate window of the gap-fill run (part_010 lines 89-93): first day of
the previous month through yesterday. -/
def runWindow (today : Date) : List Date :=
  getDateRange (startOfPreviousMonth today) (predDate today)

/-- Tail of `fillMissingEntries` after a successful existence-check phase
(part_010 lines 133-222): compute the missing set from the check results,
return the zero-gap summary when it is empty, otherwise run the batched
creation phase and summarize. -/
def fillFromResults (env : Env) (led : Ledger) (today : Date)
    (checkedLen : Nat) (entryResults : List (Date × Bool)) : GapOutcome :=
  if ((entryResults.filter (fun r => !r.2)).map (fun r => r.1)).isEmpty then
    ⟨env, led, .ok ⟨checkedLen, 0, 0⟩⟩
  else
    ⟨(creationPhase env led today
        ((entryResults.filter (fun r => !r.2)).map (fun r => r.1))).1,
      (creationPhase env led today
        ((entryResults.filter (fun r => !r.2)).map (fun r => r.1))).2.1,
      .ok ⟨checkedLen,
        (((entryResults.filter (fun r => !r.2)).map (fun r => r.1))).length,
        ((creationPhase env led today
            ((entryResults.filter (fun r => !r.2)).map (fun r => r.1))).2.2.filter
          (fun r => r.success)).length⟩⟩

/-- Embedding of `fillMissingEntries` (part_010 lines 80-222): compute the
window, filter to eligible dates, run the batched existence checks (an error
there propagates out of the function, leaving remote state and ledger
untouched), compute the missing set, and create the missing entries with
per-date failure isolation. -/
def fillMissingEntries (env : Env) (led : Ledger) (today : Date) : GapOutcome :=
  match checkPhase env (eligibleDates env.holiday (runWindow today)) with
  | .error e => ⟨env, led, .error e⟩
  | .ok entryResults =>
    fillFromResults env led today
      (eligibleDates env.holiday (runWindow today)).length entryResults

/-- Embedding of `processCurrentDay` (part_010 lines 224-293), the separate
single-date path for today: check the remote once; when an entry is missing,
resolve a description (Jira directly when configured, upserting today's task
assignment on success; otherwise the stored assignment covering today), then
create and record one entry.  The returned ledger reflects the state even
when the create call throws afterwards; the error propagates to the caller. -/
def processCurrentDay (env : Env) (led : Ledger) (today : Date) :
    Ledger × Except Err (Env × Bool) :=
  match hasEntryForDate env today with
  | .error e => (led, .error e)
  | .ok true => (led, .ok (env, false))
  | .ok false =>
    let resolved : Ledger × String :=
      match env.jira with
      | some (.ok (t :: _)) =>
        let up := addTask led today
          (if env.cfg.projectId = "" then "default" else env.cfg.projectId) t
        (up.2, t)
      | some (.ok []) => (led, "General work")
      | some (.error _) =>
        (led, match getTaskForDate today led.tasks today with
          | some t => t.description
          | none => "General work")
      | none =>
        (led, match getTaskForDate today led.tasks today with
          | some t => t.description
          | none => "General work")
    let led1 := resolved.1
    let desc := resolved.2
    let te := createTimeEntry env.cfg today desc none none
    match addTimeEntry env te with
    | .error e => (led1, .error e)
    | .ok id =>
      let record : TimeEntryRecord :=
        ⟨id, today, desc, te.startMin, te.endMin, te.endMin - te.startMin,
          env.cfg.projectId, env.cfg.workspaceId⟩
      let env2 : Env :=
        { env with remote := today :: env.remote,
                   nextEntryId := env.nextEntryId + 1 }
      (addTimeEntryRecord led1 record, .ok (env2, true))

/-- Observable outcome of one `run` command invocation (part_010 lines
11-78): process exit code, the printed skip reason when today was skipped,
the gap-fill summary when that phase completed, whether today's entry was
created, whether the monthly-report collaborator was invoked, and the final
ledger. -/
structure RunResult where
  exitCode : Nat
  skippedReason : Option String
  summary : Option Summary
  todayCreated : Bool
  reportInvoked : Bool
  ledger : Ledger
deriving DecidableEq, Repr

/-- Embedding of the `run` command action (part_010 lines 15-75) on a
configured installation: skip entirely when today is a weekend or holiday;
otherwise run the gap-fill, then today's path, then invoke the monthly
report collaborator iff `isLastBusinessDayOfMonth` holds for today.  An
error from the gap-fill or today's path reaches the top-level catch, which
exits with code 1; `generateMonthlyReport` catches its own errors, so it
never affects the exit code. -/
def runCommand (env : Env) (led : Ledger) (today : Date) : RunResult :=
  if (shouldSkipDate env.holiday today).skip then
    ⟨0, (shouldSkipDate env.holiday today).reason, none, false, false, led⟩
  else
    match (fillMissingEntries env led today).outcome with
    | .error _ =>
      ⟨1, none, none, false, false, (fillMissingEntries env led today).ledger⟩
    | .ok s =>
      match processCurrentDay (fillMissingEntries env led today).env
          (fillMissingEntries env led today).ledger today with
      | (led2, .error _) => ⟨1, none, some s, false, false, led2⟩
      | (led2, .ok (_, createdToday)) =>
        ⟨0, none, some s, createdToday, isLastBusinessDayOfMonth today, led2⟩

/-- Modelled from the spec (section 4.5): "the latest day of the month that
is both a weekday AND not a recognized public holiday" — the specification's
notion of last business day, stated for comparison with the code's
`isLastBusinessDayOfMonth`. -/
def lastBusinessDayOfMonthSpec (hol : HolidayLookup) (dt : Date) : Bool :=
  isBusinessDay hol dt &&
    (((List.range (daysInMonth dt.y dt.m + 1)).filter (fun k =>
      dt.d < k && isBusinessDay hol ⟨dt.y, dt.m, k⟩)).isEmpty)

/-- Start minutes derived from the configured default start time. -/
def defaultStartMin (cfg : Config) : Nat :=
  (parseTime cfg.defaultStartTime).1 * 60 + (parseTime cfg.defaultStartTime).2

/-- End minutes derived from the configured default end time. -/
def defaultEndMin (cfg : Config) : Nat :=
  (parseTime cfg.defaultEndTime).1 * 60 + (parseTime cfg.defaultEndTime).2

/-- Whether the gap-fill create call for a date succeeds: the derived default
interval must be positive (otherwise the remote rejects it) and the per-date
failure oracle must be silent.  The description never influences success. -/
def createSucceeds (env : Env) (d : Date) : Bool :=
  decide (defaultStartMin env.cfg < defaultEndMin env.cfg) &&
    (env.createFail d).isNone

/-- Missing set of a gap-fill run, assuming every existence check answers:
eligible dates without a remote entry. -/
def gapMissing (env : Env) (today : Date) : List Date :=
  (eligibleDates env.holiday (runWindow today)).filter
    (fun d => !(env.remote.contains d))

/-- Added-count projection of a gap-fill outcome. -/
def addedOf : Except Err Summary → Nat
  | .ok s => s.added
  | .error _ => 0

/-- Two environments with identical behaviour parameters: the gap-fill run
mutates only the remote entry set and the id counter, never these. -/
def sameBehavior (a b : Env) : Prop :=
  b.cfg = a.cfg ∧ b.holiday = a.holiday ∧ b.checkFail = a.checkFail ∧
    b.createFail = a.createFail ∧ b.jira = a.jira

/-- Holiday lookup recognizing no holidays. -/
def holNone : HolidayLookup := fun _ => .ok none

/-- Holiday lookup marking 2025-12-31 (a Wednesday, the last weekday of
December 2025) as a holiday. -/
def holDec31 : HolidayLookup := fun d =>
  if d = ⟨2025, 12, 31⟩ then .ok (some ["Test Holiday"]) else .ok none

/-- Holiday lookup whose underlying library call always throws. -/
def holThrows : HolidayLookup := fun _ => .error ()

/-- Baseline configuration with the repository's default times. -/
def cfg0 : Config := ⟨"09:00", "17:00", "proj-1", "ws-1", true⟩

/-- Configuration whose default end time precedes its default start time. -/
def cfgBad : Config := ⟨"09:00", "08:00", "proj-1", "ws-1", true⟩

/-- Empty ledger. -/
def ledger0 : Ledger := ⟨[], 1, []⟩

/-- Environment in which exactly one eligible date's existence check throws a
transient error and the rest answer normally. -/
def envCheckErr : Env :=
  ⟨cfg0, holNone, [], 1,
    fun d => if d = ⟨2025, 1, 8⟩ then some (.transient "connection timeout")
      else none,
    fun _ => none, none⟩

/-- Five particular weekdays of January 2025 (Monday through Friday). -/
def missing5 : List Date :=
  [⟨2025, 1, 6⟩, ⟨2025, 1, 7⟩, ⟨2025, 1, 8⟩, ⟨2025, 1, 9⟩, ⟨2025, 1, 10⟩]

/-- Environment whose remote has entries for every eligible date of the
window before 2025-02-03 except `missing5`, and for today itself; the create
call fails with a transient network failure for exactly one of the five. -/
def envBatch : Env :=
  ⟨cfg0, holNone,
    [⟨2025, 1, 1⟩, ⟨2025, 1, 2⟩, ⟨2025, 1, 3⟩, ⟨2025, 1, 13⟩, ⟨2025, 1, 14⟩,
     ⟨2025, 1, 15⟩, ⟨2025, 1, 16⟩, ⟨2025, 1, 17⟩, ⟨2025, 1, 20⟩, ⟨2025, 1, 21⟩,
     ⟨2025, 1, 22⟩, ⟨2025, 1, 23⟩, ⟨2025, 1, 24⟩, ⟨2025, 1, 27⟩, ⟨2025, 1, 28⟩,
     ⟨2025, 1, 29⟩, ⟨2025, 1, 30⟩, ⟨2025, 1, 31⟩, ⟨2025, 2, 3⟩],
    1, fun _ => none,
    fun d => if d = ⟨2025, 1, 8⟩ then some (.netFail "connection reset")
      else none,
    none⟩

/-- Environment for December 2025 with `holDec31`: every eligible date of the
window before 2025-12-30 already has an entry, and so does today. -/
def envHolidayDec : Env :=
  ⟨cfg0, holDec31,
    [⟨2025, 11, 3⟩, ⟨2025, 11, 4⟩, ⟨2025, 11, 5⟩, ⟨2025, 11, 6⟩, ⟨2025, 11, 7⟩,
     ⟨2025, 11, 10⟩, ⟨2025, 11, 11⟩, ⟨2025, 11, 12⟩, ⟨2025, 11, 13⟩,
     ⟨2025, 11, 14⟩, ⟨2025, 11, 17⟩, ⟨2025, 11, 18⟩, ⟨2025, 11, 19⟩,
     ⟨2025, 11, 20⟩, ⟨2025, 11, 21⟩, ⟨2025, 11, 24⟩, ⟨2025, 11, 25⟩,
     ⟨2025, 11, 26⟩, ⟨2025, 11, 27⟩, ⟨2025, 11, 28⟩, ⟨2025, 12, 1⟩,
     ⟨2025, 12, 2⟩, ⟨2025, 12, 3⟩, ⟨2025, 12, 4⟩, ⟨2025, 12, 5⟩, ⟨2025, 12, 8⟩,
     ⟨2025, 12, 9⟩, ⟨2025, 12, 10⟩, ⟨2025, 12, 11⟩, ⟨2025, 12, 12⟩,
     ⟨2025, 12, 15⟩, ⟨2025, 12, 16⟩, ⟨2025, 12, 17⟩, ⟨2025, 12, 18⟩,
     ⟨2025, 12, 19⟩, ⟨2025, 12, 22⟩, ⟨2025, 12, 23⟩, ⟨2025, 12, 24⟩,
     ⟨2025, 12, 25⟩, ⟨2025, 12, 26⟩, ⟨2025, 12, 29⟩, ⟨2025, 12, 30⟩],
    1, fun _ => none, fun _ => none, none⟩

/-- Environment for 2025-01-31, the last weekday of its month, with every
eligible date of the window already covered. -/
def envJan : Env :=
  ⟨cfg0, holNone,
    [⟨2024, 12, 2⟩, ⟨2024, 12, 3⟩, ⟨2024, 12, 4⟩, ⟨2024, 12, 5⟩, ⟨2024, 12, 6⟩,
     ⟨2024, 12, 9⟩, ⟨2024, 12, 10⟩, ⟨2024, 12, 11⟩, ⟨2024, 12, 12⟩,
     ⟨2024, 12, 13⟩, ⟨2024, 12, 16⟩, ⟨2024, 12, 17⟩, ⟨2024, 12, 18⟩,
     ⟨2024, 12, 19⟩, ⟨2024, 12, 20⟩, ⟨2024, 12, 23⟩, ⟨2024, 12, 24⟩,
     ⟨2024, 12, 25⟩, ⟨2024, 12, 26⟩, ⟨2024, 12, 27⟩, ⟨2024, 12, 30⟩,
     ⟨2024, 12, 31⟩, ⟨2025, 1, 1⟩, ⟨2025, 1, 2⟩, ⟨2025, 1, 3⟩, ⟨2025, 1, 6⟩,
     ⟨2025, 1, 7⟩, ⟨2025, 1, 8⟩, ⟨2025, 1, 9⟩, ⟨2025, 1, 10⟩, ⟨2025, 1, 13⟩,
     ⟨2025, 1, 14⟩, ⟨2025, 1, 15⟩, ⟨2025, 1, 16⟩, ⟨2025, 1, 17⟩, ⟨2025, 1, 20⟩,
     ⟨2025, 1, 21⟩, ⟨2025, 1, 22⟩, ⟨2025, 1, 23⟩, ⟨2025, 1, 24⟩, ⟨2025, 1, 27⟩,
     ⟨2025, 1, 28⟩, ⟨2025, 1, 29⟩, ⟨2025, 1, 30⟩, ⟨2025, 1, 31⟩],
    1, fun _ => none, fun _ => none, none⟩

/-- Environment with an invalid default-time configuration. -/
def envBad : Env :=
  ⟨cfgBad, holNone, [], 1, fun _ => none, fun _ => none, none⟩

/-- Environment with no remote entries at all and a fully silent remote. -/
def envQuiet : Env :=
  ⟨cfg0, holNone, [], 1, fun _ => none, fun _ => none, none⟩

example : dayOfWeek ⟨1970, 1, 1⟩ = 4 := by decide
example : dayOfWeek ⟨2025, 12, 30⟩ = 2 := by decide
example : isWeekday ⟨2025, 1, 6⟩ = true := by decide
example : isWeekday ⟨2025, 1, 4⟩ = false := by decide
example : isLastBusinessDayOfMonth ⟨2025, 1, 31⟩ = true := by decide
example : isLastBusinessDayOfMonth ⟨2025, 1, 30⟩ = false := by decide
example : isLastBusinessDayOfMonth ⟨2025, 3, 31⟩ = true := by decide
example : isLastBusinessDayOfMonth ⟨2025, 3, 28⟩ = false := by decide
example : getDateRange ⟨2025, 1, 30⟩ ⟨2025, 2, 2⟩ =
    [⟨2025, 1, 30⟩, ⟨2025, 1, 31⟩, ⟨2025, 2, 1⟩, ⟨2025, 2, 2⟩] := by decide

theorem shouldSkip_eq_not_isBusinessDay (hol : HolidayLookup) (d : Date) :
    (shouldSkipDate hol d).skip = !(isBusinessDay hol d) := by
  unfold shouldSkipDate getSkipReason isBusinessDay isHoliday getHolidayName
  cases hw : isWeekday d with
  | false => simp
  | true =>
    cases hl : hol d with
    | error u => simp
    | ok o =>
      cases o with
      | none => simp
      | some l =>
        cases l with
        | nil => simp
        | cons a as => simp

theorem checkPhase_ok_of_no_failure (env : Env) (l : List Date)
    (h : ∀ d ∈ l, env.checkFail d = none) :
    checkPhase env l = .ok (l.map (fun d => (d, env.remote.contains d))) := by
  induction l with
  | nil => rfl
  | cons a rest ih =>
    have ha : env.checkFail a = none := h a (List.mem_cons_self a rest)
    have hr := ih (fun d hd => h d (List.mem_cons_of_mem a hd))
    simp only [checkPhase, hasEntryForDate, ha, hr, List.map_cons]

theorem checkPhase_error_of_mem (env : Env) (l : List Date) (d : Date)
    (hm : d ∈ l) (hf : env.checkFail d ≠ none) :
    ∃ e, checkPhase env l = .error e := by
  induction l with
  | nil => cases hm
  | cons a rest ih =>
    cases hfa : env.checkFail a with
    | some e => exact ⟨e, by simp only [checkPhase, hasEntryForDate, hfa]⟩
    | none =>
      have hd : d ∈ rest := by
        rcases List.mem_cons.mp hm with h1 | h1
        · exact absurd (h1 ▸ hfa) hf
        · exact h1
      rcases ih hd with ⟨e, he⟩
      exact ⟨e, by simp only [checkPhase, hasEntryForDate, hfa, he]⟩

theorem filter_missing_of_map (l : List Date) (f : Date → Bool) :
    ((l.map (fun d => (d, f d))).filter (fun r => !r.2)).map (fun r => r.1) =
      l.filter (fun d => !f d) := by
  induction l with
  | nil => rfl
  | cons a rest ih =>
    by_cases hf : f a = true
    · simp [hf, ih]
    · simp only [Bool.not_eq_true] at hf
      simp [hf, ih]

theorem remotePost_ok (env : Env) (te : TimeEntry)
    (h1 : te.startMin < te.endMin) (h2 : env.createFail te.date = none) :
    remotePostTimeEntry env te = .ok env.nextEntryId := by
  unfold remotePostTimeEntry
  rw [if_neg (by omega), h2]

theorem remotePost_err_oracle (env : Env) (te : TimeEntry) (f : RemoteFailure)
    (h1 : te.startMin < te.endMin) (h2 : env.createFail te.date = some f) :
    remotePostTimeEntry env te = .error f := by
  unfold remotePostTimeEntry
  rw [if_neg (by omega), h2]

theorem remotePost_err_validation (env : Env) (te : TimeEntry)
    (h1 : te.endMin ≤ te.startMin) :
    remotePostTimeEntry env te = .error (.badRequest "TIME_ENTRY_INVALID") := by
  unfold remotePostTimeEntry
  rw [if_pos h1]

theorem addTimeEntry_of_post_ok (env : Env) (te : TimeEntry) (i : Nat)
    (h : remotePostTimeEntry env te = .ok i) : addTimeEntry env te = .ok i := by
  unfold addTimeEntry
  rw [h]

theorem addTimeEntry_of_post_err (env : Env) (te : TimeEntry) (f : RemoteFailure)
    (h : remotePostTimeEntry env te = .error f) :
    addTimeEntry env te = .error (mapRemoteFailure f) := by
  unfold addTimeEntry
  rw [h]

theorem addTimeEntry_gap_ok (env : Env) (d : Date) (desc : String)
    (h : createSucceeds env d = true) :
    addTimeEntry env (createTimeEntry env.cfg d desc none none) =
      .ok env.nextEntryId := by
  have h1 := (Bool.and_eq_true _ _).mp h
  have hlt : defaultStartMin env.cfg < defaultEndMin env.cfg :=
    of_decide_eq_true h1.1
  have hcf : env.createFail d = none := Option.isNone_iff_eq_none.mp h1.2
  exact addTimeEntry_of_post_ok _ _ _ (remotePost_ok env _ hlt hcf)

theorem addTimeEntry_gap_err (env : Env) (d : Date) (desc : String)
    (h : createSucceeds env d = false) :
    ∃ e, addTimeEntry env (createTimeEntry env.cfg d desc none none) =
      .error e := by
  by_cases hlt : defaultStartMin env.cfg < defaultEndMin env.cfg
  · have hcf : ∃ f, env.createFail d = some f := by
      cases hf : env.createFail d with
      | none =>
        exfalso
        have : createSucceeds env d = true := by
          unfold createSucceeds
          rw [hf]
          simp [hlt]
        rw [this] at h
        cases h
      | some f => exact ⟨f, rfl⟩
    rcases hcf with ⟨f, hf⟩
    exact ⟨mapRemoteFailure f,
      addTimeEntry_of_post_err _ _ _ (remotePost_err_oracle env _ f hlt hf)⟩
  · have hle : (createTimeEntry env.cfg d desc none none).endMin ≤
        (createTimeEntry env.cfg d desc none none).startMin := by
      show defaultEndMin env.cfg ≤ defaultStartMin env.cfg
      omega
    exact ⟨mapRemoteFailure (.badRequest "TIME_ENTRY_INVALID"),
      addTimeEntry_of_post_err _ _ _ (remotePost_err_validation env _ hle)⟩

theorem createOneEntry_ok (env : Env) (led : Ledger) (today d : Date)
    (h : createSucceeds env d = true) :
    createOneEntry env led today d =
      ({ env with remote := d :: env.remote, nextEntryId := env.nextEntryId + 1 },
        addTimeEntryRecord led
          ⟨env.nextEntryId, d, resolveGapDescription env led today d,
            defaultStartMin env.cfg, defaultEndMin env.cfg,
            defaultEndMin env.cfg - defaultStartMin env.cfg,
            env.cfg.projectId, env.cfg.workspaceId⟩,
        ⟨d, true, none⟩) := by
  unfold createOneEntry gapTimeEntry
  rw [addTimeEntry_gap_ok env d _ h]
  rfl

theorem createOneEntry_err (env : Env) (led : Ledger) (today d : Date)
    (h : createSucceeds env d = false) :
    ∃ m, createOneEntry env led today d = (env, led, ⟨d, false, some m⟩) := by
  rcases addTimeEntry_gap_err env d (resolveGapDescription env led today d) h with
    ⟨e, he⟩
  refine ⟨errMessage e, ?_⟩
  unfold createOneEntry gapTimeEntry
  rw [he]

theorem sameBehavior_refl (a : Env) : sameBehavior a a :=
  ⟨rfl, rfl, rfl, rfl, rfl⟩

theorem sameBehavior_trans {a b c : Env}
    (h1 : sameBehavior a b) (h2 : sameBehavior b c) : sameBehavior a c :=
  ⟨h2.1.trans h1.1, h2.2.1.trans h1.2.1, h2.2.2.1.trans h1.2.2.1,
    h2.2.2.2.1.trans h1.2.2.2.1, h2.2.2.2.2.trans h1.2.2.2.2⟩

theorem createSucceeds_congr {a b : Env} (h : sameBehavior a b) :
    createSucceeds b = createSucceeds a := by
  funext d
  unfold createSucceeds
  rw [h.1, h.2.2.2.1]

theorem creationPhase_spec (today : Date) :
    ∀ (ds : List Date) (env : Env) (led : Ledger),
      sameBehavior env (creationPhase env led today ds).1 ∧
      (∀ x, env.remote.contains x = true →
        (creationPhase env led today ds).1.remote.contains x = true) ∧
      (∀ d ∈ ds, createSucceeds env d = true →
        (creationPhase env led today ds).1.remote.contains d = true) ∧
      ((creationPhase env led today ds).2.2.map (fun r => r.success) =
        ds.map (createSucceeds env)) ∧
      (∃ tail, (creationPhase env led today ds).2.1.entries =
          led.entries ++ tail ∧
        tail.length = (ds.filter (createSucceeds env)).length) := by
  intro ds
  induction ds with
  | nil =>
    intro env led
    exact ⟨sameBehavior_refl env, fun x hx => hx, fun d hd => absurd hd
      (List.not_mem_nil d), rfl, ⟨[], by simp [creationPhase], rfl⟩⟩
  | cons d rest ih =>
    intro env led
    by_cases h : createSucceeds env d = true
    · rw [creationPhase, createOneEntry_ok env led today d h]
      set record0 : TimeEntryRecord :=
        ⟨env.nextEntryId, d, resolveGapDescription env led today d,
          defaultStartMin env.cfg, defaultEndMin env.cfg,
          defaultEndMin env.cfg - defaultStartMin env.cfg,
          env.cfg.projectId, env.cfg.workspaceId⟩ with hrec0
      set env1 : Env :=
        { env with remote := d :: env.remote,
                   nextEntryId := env.nextEntryId + 1 } with henv1
      set led1 : Ledger := addTimeEntryRecord led record0 with hled1
      have hb1 : sameBehavior env env1 := ⟨rfl, rfl, rfl, rfl, rfl⟩
      rcases ih env1 led1 with ⟨ihb, ihmono, ihmem, ihmap, ihtail⟩
      have hsc : createSucceeds env1 = createSucceeds env :=
        createSucceeds_congr hb1
      refine ⟨sameBehavior_trans hb1 ihb, ?_, ?_, ?_, ?_⟩
      · intro x hx
        refine ihmono x ?_
        rw [henv1]
        rw [List.contains_cons, hx]
        exact Bool.or_true _
      · intro d2 hd2 hs2
        rcases List.mem_cons.mp hd2 with h1 | h1
        · subst h1
          refine ihmono d2 ?_
          rw [henv1]
          rw [List.contains_cons]
          simp
        · exact ihmem d2 h1 (by rw [hsc]; exact hs2)
      · show _ :: _ = _ :: _
        rw [ihmap, hsc, h]
      · rcases ihtail with ⟨tail, ht, hlen⟩
        refine ⟨record0 :: tail, ?_, ?_⟩
        · rw [ht, hled1]
          show (led.entries ++ [record0]) ++ tail = led.entries ++ record0 :: tail
          rw [List.append_assoc]
          rfl
        · rw [List.filter_cons_of_pos h, List.length_cons, List.length_cons,
            hlen, hsc]
    · have hfalse : createSucceeds env d = false := by
        cases hcs : createSucceeds env d with
        | true => exact absurd hcs h
        | false => rfl
      rcases createOneEntry_err env led today d hfalse with ⟨m, hm⟩
      rw [creationPhase, hm]
      rcases ih env led with ⟨ihb, ihmono, ihmem, ihmap, ihtail⟩
      refine ⟨ihb, ihmono, ?_, ?_, ?_⟩
      · intro d2 hd2 hs2
        rcases List.mem_cons.mp hd2 with h1 | h1
        · subst h1
          rw [hs2] at hfalse
          cases hfalse
        · exact ihmem d2 h1 hs2
      · show _ :: _ = _ :: _
        rw [ihmap, hfalse]
      · rcases ihtail with ⟨tail, ht, hlen⟩
        refine ⟨tail, ht, ?_⟩
        rw [hlen, List.filter_cons_of_neg (by rw [hfalse]; exact Bool.false_ne_true)]

theorem checkPhase_ok_no_failure (env : Env) (l : List Date)
    (rs : List (Date × Bool)) (h : checkPhase env l = .ok rs) :
    ∀ d ∈ l, env.checkFail d = none := by
  induction l generalizing rs with
  | nil =>
    intro d hd
    cases hd
  | cons a rest ih =>
    intro d hd
    cases hfa : env.checkFail a with
    | some e =>
      rw [checkPhase] at h
      unfold hasEntryForDate at h
      rw [hfa] at h
      cases h
    | none =>
      rcases List.mem_cons.mp hd with h1 | h1
      · subst h1
        exact hfa
      · rw [checkPhase] at h
        unfold hasEntryForDate at h
        rw [hfa] at h
        cases hcp : checkPhase env rest with
        | error e =>
          rw [hcp] at h
          cases h
        | ok rs2 => exact ih rs2 hcp d h1

theorem filter_length_of_map_eq {α β : Type} (p : α → Bool) (q : β → Bool) :
    ∀ (xs : List α) (ys : List β), xs.map p = ys.map q →
      (xs.filter p).length = (ys.filter q).length := by
  intro xs
  induction xs with
  | nil =>
    intro ys h
    cases ys with
    | nil => rfl
    | cons y ys => cases h
  | cons x xs ih =>
    intro ys h
    cases ys with
    | nil => cases h
    | cons y ys =>
      have h1 : p x = q y := by
        injection h with hh ht
      have h2 : (xs.filter p).length = (ys.filter q).length := by
        refine ih ys ?_
        injection h with hh ht
      by_cases hp : p x = true
      · rw [List.filter_cons_of_pos hp,
          List.filter_cons_of_pos (by rw [← h1]; exact hp),
          List.length_cons, List.length_cons, h2]
      · rw [List.filter_cons_of_neg hp,
          List.filter_cons_of_neg (by rw [← h1]; exact hp), h2]

theorem fillMissing_check_error (env : Env) (led : Ledger) (today d : Date)
    (hm : d ∈ eligibleDates env.holiday (runWindow today))
    (hf : env.checkFail d ≠ none) :
    ∃ e, fillMissingEntries env led today = ⟨env, led, .error e⟩ := by
  rcases checkPhase_error_of_mem env _ d hm hf with ⟨e, he⟩
  refine ⟨e, ?_⟩
  unfold fillMissingEntries
  rw [he]

theorem fillMissing_ok_spec (env : Env) (led : Ledger) (today : Date)
    (h : ∀ d ∈ eligibleDates env.holiday (runWindow today),
      env.checkFail d = none) :
    (fillMissingEntries env led today).outcome =
      .ok ⟨(eligibleDates env.holiday (runWindow today)).length,
           (gapMissing env today).length,
           ((gapMissing env today).filter (createSucceeds env)).length⟩ ∧
    sameBehavior env (fillMissingEntries env led today).env ∧
    (∀ x, env.remote.contains x = true →
      (fillMissingEntries env led today).env.remote.contains x = true) ∧
    (∀ d ∈ gapMissing env today, createSucceeds env d = true →
      (fillMissingEntries env led today).env.remote.contains d = true) ∧
    (∃ tail, (fillMissingEntries env led today).ledger.entries =
        led.entries ++ tail ∧
      tail.length = ((gapMissing env today).filter (createSucceeds env)).length) := by
  have hcp := checkPhase_ok_of_no_failure env _ h
  have hmiss : ((List.map (fun d => (d, env.remote.contains d))
      (eligibleDates env.holiday (runWindow today))).filter
        (fun r => !r.2)).map (fun r => r.1) = gapMissing env today :=
    filter_missing_of_map _ _
  have hfill : fillMissingEntries env led today =
      fillFromResults env led today
        (eligibleDates env.holiday (runWindow today)).length
        (List.map (fun d => (d, env.remote.contains d))
          (eligibleDates env.holiday (runWindow today))) := by
    unfold fillMissingEntries
    rw [hcp]
  rw [hfill]
  unfold fillFromResults
  rw [hmiss]
  by_cases hemp : (gapMissing env today).isEmpty = true
  · rw [if_pos hemp]
    have hnil : gapMissing env today = [] := by
      cases hgm : gapMissing env today with
      | nil => rfl
      | cons a l =>
        rw [hgm] at hemp
        cases hemp
    refine ⟨?_, sameBehavior_refl env, fun x hx => hx, ?_, ⟨[], by simp, ?_⟩⟩
    · rw [hnil]
      rfl
    · intro d hd
      rw [hnil] at hd
      cases hd
    · rw [hnil]
      rfl
  · rw [if_neg hemp]
    rcases creationPhase_spec today (gapMissing env today) env led with
      ⟨hb, hmono, hmem, hmap, htail⟩
    refine ⟨?_, hb, hmono, hmem, htail⟩
    have hcount : ((creationPhase env led today
        (gapMissing env today)).2.2.filter (fun r => r.success)).length =
        ((gapMissing env today).filter (createSucceeds env)).length :=
      filter_length_of_map_eq _ _ _ _ hmap
    rw [hcount]

theorem processCurrentDay_has_entry (env : Env) (led : Ledger) (today : Date)
    (h1 : env.checkFail today = none) (h2 : env.remote.contains today = true) :
    processCurrentDay env led today = (led, .ok (env, false)) := by
  unfold processCurrentDay hasEntryForDate
  rw [h1, h2]

theorem run_ok_shape (env : Env) (led : Ledger) (today : Date)
    (hskip : (shouldSkipDate env.holiday today).skip = false)
    (hchk : ∀ d, env.checkFail d = none)
    (htoday : env.remote.contains today = true) :
    runCommand env led today =
      ⟨0, none,
        some ⟨(eligibleDates env.holiday (runWindow today)).length,
          (gapMissing env today).length,
          ((gapMissing env today).filter (createSucceeds env)).length⟩,
        false, isLastBusinessDayOfMonth today,
        (fillMissingEntries env led today).ledger⟩ := by
  rcases fillMissing_ok_spec env led today (fun d _ => hchk d) with
    ⟨hout, hb, hmono, hmem, htail⟩
  have hcf : (fillMissingEntries env led today).env.checkFail today = none := by
    rw [hb.2.2.1]
    exact hchk today
  have hct : (fillMissingEntries env led today).env.remote.contains today =
      true := hmono today htoday
  have hpcd := processCurrentDay_has_entry (fillMissingEntries env led today).env
    (fillMissingEntries env led today).ledger today hcf hct
  unfold runCommand
  rw [if_neg (by rw [hskip]; exact Bool.false_ne_true), hout, hpcd]

theorem isBusinessDay_true_of_no_skip (hol : HolidayLookup) (d : Date)
    (h : (shouldSkipDate hol d).skip = false) : isBusinessDay hol d = true := by
  have hsk := shouldSkip_eq_not_isBusinessDay hol d
  rw [h] at hsk
  cases hb : isBusinessDay hol d with
  | true => rfl
  | false =>
    rw [hb] at hsk
    simp at hsk

theorem isBusinessDay_false_of_skip (hol : HolidayLookup) (d : Date)
    (h : (shouldSkipDate hol d).skip = true) : isBusinessDay hol d = false := by
  have hsk := shouldSkip_eq_not_isBusinessDay hol d
  rw [h] at hsk
  cases hb : isBusinessDay hol d with
  | true =>
    rw [hb] at hsk
    simp at hsk
  | false => rfl

/-- C1 (corrected): in the existence-check phase the per-date closures carry
no try/catch, so a single date's failing `hasEntryForDate` rejects the
batch's `Promise.all`, the error propagates out of `fillMissingEntries`
leaving remote state and ledger untouched, and the run aborts with exit code
1 before any entry is created.  The erroring date is not treated as having an
entry — instead the whole reconciliation is aborted. -/
theorem claim_C1_theorem (env : Env) (led : Ledger) (today d : Date)
    (hm : d ∈ eligibleDates env.holiday (runWindow today))
    (hf : env.checkFail d ≠ none)
    (hskip : (shouldSkipDate env.holiday today).skip = false) :
    (∃ e, fillMissingEntries env led today = ⟨env, led, .error e⟩) ∧
    runCommand env led today = ⟨1, none, none, false, false, led⟩ := by
  rcases fillMissing_check_error env led today d hm hf with ⟨e, he⟩
  refine ⟨⟨e, he⟩, ?_⟩
  unfold runCommand
  rw [if_neg (by rw [hskip]; exact Bool.false_ne_true), he]

/-- C1 counterexample: with a single eligible date (2025-01-08) whose
existence check throws a transient error and today = 2025-02-03 a Monday,
the run crashes (exit code 1) and produces no summary — refuting the claim
that one check's failure does not crash the run. -/
theorem claim_C1_counterexample :
    (runCommand envCheckErr ledger0 ⟨2025, 2, 3⟩).exitCode = 1 ∧
    (runCommand envCheckErr ledger0 ⟨2025, 2, 3⟩).summary = none := by
  decide

/-- C1 witness: the amended theorem instantiated at the same concrete
environment. -/
theorem claim_C1_witness :
    (∃ e, fillMissingEntries envCheckErr ledger0 ⟨2025, 2, 3⟩ =
      ⟨envCheckErr, ledger0, .error e⟩) ∧
    runCommand envCheckErr ledger0 ⟨2025, 2, 3⟩ =
      ⟨1, none, none, false, false, ledger0⟩ :=
  claim_C1_theorem envCheckErr ledger0 ⟨2025, 2, 3⟩ ⟨2025, 1, 8⟩
    (by decide) (by decide) (by decide)

/-- C2 (confirmed): the gap-fill phase is idempotent.  With the remote
service modelled deterministically (failure oracles fixed between the two
runs) and no external change to the remote entries, a second
`fillMissingEntries` run creates zero entries: every date created in the
first run satisfies the existence check in the second, and every date still
missing failed in the first run and fails identically again. -/
theorem claim_C2_theorem (env : Env) (led : Ledger) (today : Date) :
    (fillMissingEntries (fillMissingEntries env led today).env
        (fillMissingEntries env led today).ledger today).ledger.entries =
      (fillMissingEntries env led today).ledger.entries ∧
    addedOf (fillMissingEntries (fillMissingEntries env led today).env
        (fillMissingEntries env led today).ledger today).outcome = 0 := by
  cases hcp : checkPhase env (eligibleDates env.holiday (runWindow today)) with
  | error e =>
    have h1 : fillMissingEntries env led today = ⟨env, led, .error e⟩ := by
      unfold fillMissingEntries
      rw [hcp]
    rw [h1]
    show (fillMissingEntries env led today).ledger.entries = led.entries ∧
      addedOf (fillMissingEntries env led today).outcome = 0
    rw [h1]
    exact ⟨rfl, rfl⟩
  | ok rs =>
    have hnofail : ∀ d ∈ eligibleDates env.holiday (runWindow today),
        env.checkFail d = none := checkPhase_ok_no_failure env _ rs hcp
    rcases fillMissing_ok_spec env led today hnofail with
      ⟨hout1, hb1, hmono1, hmem1, htail1⟩
    have helig : eligibleDates (fillMissingEntries env led today).env.holiday
        (runWindow today) = eligibleDates env.holiday (runWindow today) := by
      rw [hb1.2.1]
    have hnofail2 : ∀ d ∈ eligibleDates
        (fillMissingEntries env led today).env.holiday (runWindow today),
        (fillMissingEntries env led today).env.checkFail d = none := by
      intro d hd
      rw [hb1.2.2.1]
      exact hnofail d (helig ▸ hd)
    rcases fillMissing_ok_spec (fillMissingEntries env led today).env
      (fillMissingEntries env led today).ledger today hnofail2 with
      ⟨hout2, hb2, hmono2, hmem2, htail2⟩
    have hms2 : ∀ d ∈ gapMissing (fillMissingEntries env led today).env today,
        createSucceeds (fillMissingEntries env led today).env d = false := by
      intro d hd
      unfold gapMissing at hd
      rw [hb1.2.1] at hd
      rcases List.mem_filter.mp hd with ⟨hd1, hd2⟩
      have hgc : (fillMissingEntries env led today).env.remote.contains d =
          false := by
        cases hc : (fillMissingEntries env led today).env.remote.contains d with
        | false => rfl
        | true =>
          rw [hc] at hd2
          simp at hd2
      have hec : env.remote.contains d = false := by
        cases hc : env.remote.contains d with
        | false => rfl
        | true =>
          have := hmono1 d hc
          rw [this] at hgc
          cases hgc
      have hdm : d ∈ gapMissing env today := by
        unfold gapMissing
        refine List.mem_filter.mpr ⟨hd1, ?_⟩
        rw [hec]
        rfl
      have hcs : createSucceeds env d = false := by
        cases hc : createSucceeds env d with
        | false => rfl
        | true =>
          have := hmem1 d hdm hc
          rw [this] at hgc
          cases hgc
      rw [createSucceeds_congr hb1]
      exact hcs
    have hfil : (gapMissing (fillMissingEntries env led today).env
        today).filter (createSucceeds (fillMissingEntries env led today).env) =
        [] := by
      refine List.filter_eq_nil_iff.mpr ?_
      intro a ha
      rw [hms2 a ha]
      exact Bool.false_ne_true
    constructor
    · rcases htail2 with ⟨tail, ht, hlen⟩
      rw [hfil] at hlen
      have : tail = [] := List.length_eq_zero.mp hlen
      rw [this] at ht
      rw [ht, List.append_nil]
    · rw [hfil] at hout2
      rw [hout2]
      rfl

/-- C3 (confirmed): the creation phase isolates per-date failures.  When no
existence check fails and today already has an entry, the run completes with
exit code 0, the summary counts exactly the missing dates that were created
(each date's create succeeds independently of its siblings), and the ledger
gains exactly one record per successful create — a failing create neither
aborts its batch nor the run. -/
theorem claim_C3_theorem (env : Env) (led : Ledger) (today : Date)
    (hskip : (shouldSkipDate env.holiday today).skip = false)
    (hchk : ∀ d, env.checkFail d = none)
    (htoday : env.remote.contains today = true) :
    (runCommand env led today).exitCode = 0 ∧
    (runCommand env led today).summary =
      some ⟨(eligibleDates env.holiday (runWindow today)).length,
        (gapMissing env today).length,
        ((gapMissing env today).filter (createSucceeds env)).length⟩ ∧
    (∃ tail, (runCommand env led today).ledger.entries = led.entries ++ tail ∧
      tail.length = ((gapMissing env today).filter (createSucceeds env)).length) := by
  rcases fillMissing_ok_spec env led today (fun d _ => hchk d) with
    ⟨hout, hb, hmono, hmem, htail⟩
  rw [run_ok_shape env led today hskip hchk htoday]
  exact ⟨rfl, rfl, htail⟩

/-- C3 witness: a window with exactly 5 missing weekdays where exactly one
create call fails with a transient network error — 23 dates checked, 5
missing, 4 created, 4 ledger records, exit code 0. -/
theorem claim_C3_witness :
    (gapMissing envBatch ⟨2025, 2, 3⟩).length = 5 ∧
    ((gapMissing envBatch ⟨2025, 2, 3⟩).filter (createSucceeds envBatch)).length
      = 4 ∧
    ((runCommand envBatch ledger0 ⟨2025, 2, 3⟩).exitCode = 0 ∧
     (runCommand envBatch ledger0 ⟨2025, 2, 3⟩).summary =
       some ⟨(eligibleDates envBatch.holiday (runWindow ⟨2025, 2, 3⟩)).length,
         (gapMissing envBatch ⟨2025, 2, 3⟩).length,
         ((gapMissing envBatch ⟨2025, 2, 3⟩).filter
           (createSucceeds envBatch)).length⟩ ∧
     (∃ tail, (runCommand envBatch ledger0 ⟨2025, 2, 3⟩).ledger.entries =
         ledger0.entries ++ tail ∧
       tail.length = ((gapMissing envBatch ⟨2025, 2, 3⟩).filter
         (createSucceeds envBatch)).length)) :=
  ⟨by decide, by decide,
    claim_C3_theorem envBatch ledger0 ⟨2025, 2, 3⟩ (by decide) (fun _ => rfl)
      (by decide)⟩

/-- C4 (confirmed): whenever the computed end instant is not strictly after
the start instant — for explicit times or times derived from the configured
defaults — the create call fails with a Validation error (the remote's
400-equivalent surfaced with its message), and for the default-derived
gap-fill step no local ledger record is written and the per-date result is a
failure. -/
theorem claim_C4_theorem (env : Env) (led : Ledger) (today d : Date)
    (desc : String) (st et : Option String)
    (h : (createTimeEntry env.cfg d desc st et).endMin ≤
      (createTimeEntry env.cfg d desc st et).startMin) :
    (∃ m, addTimeEntry env (createTimeEntry env.cfg d desc st et) =
      .error (.validation m)) ∧
    (st = none → et = none →
      (createOneEntry env led today d).1 = env ∧
      (createOneEntry env led today d).2.1 = led ∧
      (createOneEntry env led today d).2.2.success = false) := by
  constructor
  · refine ⟨"Invalid time entry data: " ++ "TIME_ENTRY_INVALID", ?_⟩
    exact addTimeEntry_of_post_err _ _ _ (remotePost_err_validation env _ h)
  · intro hst het
    subst hst
    subst het
    have hle : defaultEndMin env.cfg ≤ defaultStartMin env.cfg := h
    have hcs : createSucceeds env d = false := by
      unfold createSucceeds
      rw [decide_eq_false (by omega)]
      rfl
    rcases createOneEntry_err env led today d hcs with ⟨m, hm⟩
    rw [hm]
    exact ⟨rfl, rfl, rfl⟩

/-- C4 witness: a configuration whose default end time 08:00 precedes its
default start time 09:00 — the create call fails with a Validation error and
the gap-fill step leaves the ledger untouched. -/
theorem claim_C4_witness :
    (∃ m, addTimeEntry envBad
      (createTimeEntry envBad.cfg ⟨2025, 1, 6⟩ "Work" none none) =
      .error (.validation m)) ∧
    (createOneEntry envBad ledger0 ⟨2025, 1, 6⟩ ⟨2025, 1, 6⟩).2.1 = ledger0 ∧
    (createOneEntry envBad ledger0 ⟨2025, 1, 6⟩ ⟨2025, 1, 6⟩).2.2.success =
      false :=
  have hthm := claim_C4_theorem envBad ledger0 ⟨2025, 1, 6⟩ ⟨2025, 1, 6⟩
    "Work" none none (by decide)
  ⟨hthm.1, (hthm.2 rfl rfl).2.1, (hthm.2 rfl rfl).2.2⟩

/-- C5 (corrected): the monthly-report collaborator is invoked iff today is
a business day (weekday, non-holiday — otherwise the run returns before the
trigger) AND `isLastBusinessDayOfMonth` holds for today; that function walks
back from the end of the month over weekends only and never consults the
holiday calendar, so the trigger condition is "last weekday", not the
specification's "last business day per the section-4.1 calendar". -/
theorem claim_C5_theorem (env : Env) (led : Ledger) (today : Date)
    (hchk : ∀ d, env.checkFail d = none)
    (htoday : env.remote.contains today = true) :
    (runCommand env led today).reportInvoked =
      (isBusinessDay env.holiday today && isLastBusinessDayOfMonth today) := by
  cases hskip : (shouldSkipDate env.holiday today).skip with
  | true =>
    have hbd := isBusinessDay_false_of_skip env.holiday today hskip
    unfold runCommand
    rw [if_pos hskip, hbd]
    rfl
  | false =>
    have hbd := isBusinessDay_true_of_no_skip env.holiday today hskip
    rw [run_ok_shape env led today hskip hchk htoday, hbd]
    rw [Bool.true_and]

/-- C5 counterexample: December 2025 with 2025-12-31 (Wednesday, the last
weekday) a holiday.  2025-12-30 is the last business day per the section-4.1
calendar, the run on it completes normally (exit 0), yet the report
collaborator is not invoked — and on 2025-12-31 the run skips before the
trigger, so the report is not generated that month at all.  This refutes the
claimed "iff" with the 4.1-calendar notion. -/
theorem claim_C5_counterexample :
    lastBusinessDayOfMonthSpec holDec31 ⟨2025, 12, 30⟩ = true ∧
    (runCommand envHolidayDec ledger0 ⟨2025, 12, 30⟩).exitCode = 0 ∧
    (runCommand envHolidayDec ledger0 ⟨2025, 12, 30⟩).reportInvoked = false ∧
    (runCommand envHolidayDec ledger0 ⟨2025, 12, 31⟩).reportInvoked = false := by
  decide

/-- C5 witness: on 2025-01-31 (a Friday, last weekday of a month with no
holiday involved) the amended equivalence evaluates to a fired trigger. -/
theorem claim_C5_witness :
    ((runCommand envJan ledger0 ⟨2025, 1, 31⟩).reportInvoked =
      (isBusinessDay envJan.holiday ⟨2025, 1, 31⟩ &&
        isLastBusinessDayOfMonth ⟨2025, 1, 31⟩)) ∧
    (isBusinessDay envJan.holiday ⟨2025, 1, 31⟩ &&
      isLastBusinessDayOfMonth ⟨2025, 1, 31⟩) = true :=
  ⟨claim_C5_theorem envJan ledger0 ⟨2025, 1, 31⟩ (fun _ => rfl) (by decide),
    by decide⟩

/-- C6 (confirmed): for every holiday lookup and date, `isBusinessDay` equals
weekday AND not-holiday, and the skip reason is "Weekend" exactly when the
day-of-week check fails (checked first, regardless of holidays), otherwise
"Holiday: name" when the holiday lookup yields a name, otherwise nothing. -/
theorem claim_C6_theorem (hol : HolidayLookup) (d : Date) :
    isBusinessDay hol d = (isWeekday d && !(isHoliday hol d)) ∧
    getSkipReason hol d =
      (if isWeekday d then
        (getHolidayName hol d).map (fun n => "Holiday: " ++ n)
       else some "Weekend") := by
  unfold isBusinessDay getSkipReason isHoliday getHolidayName
  cases hw : isWeekday d with
  | false => simp
  | true =>
    cases hl : hol d with
    | error u => simp
    | ok o =>
      cases o with
      | none => simp
      | some l =>
        cases l with
        | nil => simp
        | cons a as => simp

/-- C7 (confirmed): a holiday lookup whose underlying library call throws is
caught inside `HolidayService.isHoliday`, which returns false — the date is
treated as a non-holiday and, `isHoliday` being a total boolean function in
this embedding, no exception reaches the caller. -/
theorem claim_C7_theorem (hol : HolidayLookup) (d : Date) (e : Unit)
    (h : hol d = .error e) :
    isHoliday hol d = false ∧ getHolidayName hol d = none := by
  unfold isHoliday getHolidayName
  rw [h]
  exact ⟨rfl, rfl⟩

/-- C7 witness: the always-throwing lookup on a concrete date. -/
theorem claim_C7_witness :
    isHoliday holThrows ⟨2025, 1, 6⟩ = false ∧
    getHolidayName holThrows ⟨2025, 1, 6⟩ = none :=
  claim_C7_theorem holThrows ⟨2025, 1, 6⟩ () rfl

/-- C10 (confirmed): when today is a weekend or holiday the run command
returns immediately after the skip check with exit code 0, the printed skip
reason, and nothing else: the gap-fill never runs (no summary, ledger
untouched), today's entry is not created, and the monthly-report trigger is
never reached. -/
theorem claim_C10_theorem (env : Env) (led : Ledger) (today : Date)
    (hskip : (shouldSkipDate env.holiday today).skip = true) :
    runCommand env led today =
      ⟨0, (shouldSkipDate env.holiday today).reason, none, false, false, led⟩ := by
  unfold runCommand
  rw [if_pos hskip]

/-- C10 witness: Saturday 2025-01-04 — the run stops at the skip check with
reason "Weekend" and no phase runs. -/
theorem claim_C10_witness :
    runCommand envQuiet ledger0 ⟨2025, 1, 4⟩ =
      ⟨0, (shouldSkipDate envQuiet.holiday ⟨2025, 1, 4⟩).reason, none, false,
        false, ledger0⟩ ∧
    (shouldSkipDate envQuiet.holiday ⟨2025, 1, 4⟩).reason = some "Weekend" :=
  ⟨claim_C10_theorem envQuiet ledger0 ⟨2025, 1, 4⟩ (by decide), by decide⟩

theorem mem_insertTask (t : TaskRow) (l : List TaskRow) (x : TaskRow) :
    x ∈ insertTask t l ↔ x = t ∨ x ∈ l := by
  induction l with
  | nil => simp [insertTask]
  | cons u rest ih =>
    unfold insertTask
    by_cases hc : toDays t.startDate ≤ toDays u.startDate
    · rw [if_pos hc]
      simp [List.mem_cons]
    · rw [if_neg hc]
      simp [List.mem_cons, ih]
      tauto

theorem insertTask_pairwise (t : TaskRow) (l : List TaskRow)
    (h : List.Pairwise (fun a b => toDays a.startDate ≤ toDays b.startDate) l) :
    List.Pairwise (fun a b => toDays a.startDate ≤ toDays b.startDate)
      (insertTask t l) := by
  induction l with
  | nil => simp [insertTask]
  | cons u rest ih =>
    rcases List.pairwise_cons.mp h with ⟨hu, hrest⟩
    unfold insertTask
    by_cases hc : toDays t.startDate ≤ toDays u.startDate
    · rw [if_pos hc]
      refine List.pairwise_cons.mpr ⟨?_, h⟩
      intro b hb
      rcases List.mem_cons.mp hb with h1 | h1
      · subst h1
        exact hc
      · exact Nat.le_trans hc (hu b h1)
    · rw [if_neg hc]
      refine List.pairwise_cons.mpr ⟨?_, ih hrest⟩
      intro b hb
      rcases (mem_insertTask t rest b).mp hb with h1 | h1
      · subst h1
        omega
      · exact hu b h1

theorem sortTasks_pairwise (l : List TaskRow) :
    List.Pairwise (fun a b => toDays a.startDate ≤ toDays b.startDate)
      (sortTasks l) := by
  induction l with
  | nil => exact List.Pairwise.nil
  | cons t rest ih => exact insertTask_pairwise t (sortTasks rest) ih

theorem assignEnds_starts (today : Date) (l : List TaskRow) :
    (assignEnds today l).map (fun t => t.startDate) =
      l.map (fun t => t.startDate) := by
  induction l with
  | nil => rfl
  | cons t rest ih =>
    cases rest with
    | nil => rfl
    | cons u rest2 =>
      show t.startDate :: (assignEnds today (u :: rest2)).map
          (fun t => t.startDate) =
        t.startDate :: (u :: rest2).map (fun t => t.startDate)
      exact congrArg _ ih

theorem assignEnds_head (today : Date) (u : TaskRow) (rest : List TaskRow) :
    ∃ C tail, assignEnds today (u :: rest) = C :: tail ∧
      C.startDate = u.startDate := by
  cases rest with
  | nil => exact ⟨_, _, rfl, rfl⟩
  | cons v rest2 => exact ⟨_, _, rfl, rfl⟩

theorem assignEnds_chain (today : Date) (l : List TaskRow) :
    List.Chain' (fun a b => a.endDate = some (predDate b.startDate))
      (assignEnds today l) := by
  induction l with
  | nil => exact List.chain'_nil
  | cons t rest ih =>
    cases rest with
    | nil => exact List.chain'_singleton _
    | cons u rest2 =>
      rcases assignEnds_head today u rest2 with ⟨C, tail, hC, hCs⟩
      show List.Chain' _
        (⟨t.id, t.startDate, t.project, t.description,
          some (predDate u.startDate)⟩ :: assignEnds today (u :: rest2))
      rw [hC]
      refine List.chain'_cons.mpr ⟨?_, ?_⟩
      · show some (predDate u.startDate) = some (predDate C.startDate)
        rw [hCs]
      · rw [← hC]
        exact ih

theorem assignEnds_last (today : Date) (l : List TaskRow) :
    (assignEnds today l).getLast?.map (fun t => t.endDate) =
      (assignEnds today l).getLast?.map (fun _ => some today) := by
  induction l with
  | nil => rfl
  | cons t rest ih =>
    cases rest with
    | nil => rfl
    | cons u rest2 =>
      rcases assignEnds_head today u rest2 with ⟨C, tail, hC, hCs⟩
      show ((⟨t.id, t.startDate, t.project, t.description,
          some (predDate u.startDate)⟩ : TaskWithEnd) ::
            assignEnds today (u :: rest2)).getLast?.map (fun t => t.endDate) =
        ((⟨t.id, t.startDate, t.project, t.description,
          some (predDate u.startDate)⟩ : TaskWithEnd) ::
            assignEnds today (u :: rest2)).getLast?.map (fun _ => some today)
      rw [hC, List.getLast?_cons_cons, ← hC]
      exact ih

/-- C8 (confirmed): the all-assignments listing is sorted by start date
ascending; each assignment's derived end date is one calendar day before the
next assignment's start date; the last assignment's derived end date is
today.  End dates are attached by `calculateEndDates` at read time — the
stored rows carry none. -/
theorem claim_C8_theorem (today : Date) (rows : List TaskRow) :
    List.Pairwise (fun a b => toDays a.startDate ≤ toDays b.startDate)
      (getTasks today rows) ∧
    List.Chain' (fun a b => a.endDate = some (predDate b.startDate))
      (getTasks today rows) ∧
    (getTasks today rows).getLast?.map (fun t => t.endDate) =
      (getTasks today rows).getLast?.map (fun _ => some today) := by
  refine ⟨?_, assignEnds_chain today (sortTasks rows),
    assignEnds_last today (sortTasks rows)⟩
  have hsorted := sortTasks_pairwise rows
  have h1 : List.Pairwise (fun a b : Date => toDays a ≤ toDays b)
      ((sortTasks rows).map (fun t => t.startDate)) :=
    List.pairwise_map.mpr hsorted
  rw [← assignEnds_starts today] at h1
  have h2 := List.pairwise_map.mp h1
  exact h2

theorem map_update_id (p : TaskRow → Bool) (f : TaskRow → TaskRow)
    (l : List TaskRow) (h : ∀ x ∈ l, p x = false) :
    l.map (fun x => if p x then f x else x) = l := by
  induction l with
  | nil => rfl
  | cons x xs ih =>
    have hx := h x (List.mem_cons_self x xs)
    rw [List.map_cons, if_neg (by rw [hx]; exact Bool.false_ne_true),
      ih (fun y hy => h y (List.mem_cons_of_mem _ hy))]

theorem filter_map_update (p : TaskRow → Bool) (f : TaskRow → TaskRow)
    (hp : ∀ x, p (f x) = p x) (l : List TaskRow) :
    (l.map (fun x => if p x then f x else x)).filter p = (l.filter p).map f := by
  induction l with
  | nil => rfl
  | cons x xs ih =>
    rw [List.map_cons]
    by_cases hx : p x = true
    · rw [if_pos hx, List.filter_cons_of_pos (by rw [hp x]; exact hx),
        List.filter_cons_of_pos hx, List.map_cons, ih]
    · have hxf : p x = false := by
        cases hb : p x with
        | true => exact absurd hb hx
        | false => rfl
      rw [if_neg hx, List.filter_cons_of_neg hx,
        List.filter_cons_of_neg hx, ih]

theorem find?_map_update (p : TaskRow → Bool) (f : TaskRow → TaskRow)
    (hp : ∀ x, p (f x) = p x) (l : List TaskRow) (r : TaskRow)
    (h : l.find? p = some r) :
    (l.map (fun x => if p x then f x else x)).find? p = some (f r) := by
  induction l with
  | nil => cases h
  | cons x xs ih =>
    by_cases hx : p x = true
    · rw [List.find?_cons_of_pos _ hx] at h
      injection h with hr
      subst hr
      rw [List.map_cons, if_pos hx]
      exact List.find?_cons_of_pos _ (by rw [hp x]; exact hx)
    · rw [List.find?_cons_of_neg _ hx] at h
      rw [List.map_cons, if_neg hx, List.find?_cons_of_neg _ hx]
      exact ih h

theorem find?_append_singleton (p : TaskRow → Bool) (l : List TaskRow)
    (a : TaskRow) (h : ∀ x ∈ l, p x = false) :
    (l ++ [a]).find? p = if p a then some a else none := by
  induction l with
  | nil =>
    show List.find? p [a] = _
    by_cases ha : p a = true
    · rw [if_pos ha]
      exact List.find?_cons_of_pos _ ha
    · rw [if_neg ha, List.find?_cons_of_neg _ ha]
      rfl
  | cons x xs ih =>
    have hx := h x (List.mem_cons_self x xs)
    show List.find? p (x :: (xs ++ [a])) = _
    rw [List.find?_cons_of_neg _ (by rw [hx]; exact Bool.false_ne_true)]
    exact ih (fun y hy => h y (List.mem_cons_of_mem _ hy))

theorem filter_singleton_of_find? (p : TaskRow → Bool) (l : List TaskRow)
    (r : TaskRow) (h : l.find? p = some r)
    (hc : (l.filter p).length ≤ 1) : l.filter p = [r] := by
  induction l with
  | nil => cases h
  | cons x xs ih =>
    by_cases hx : p x = true
    · rw [List.find?_cons_of_pos _ hx] at h
      injection h with hr
      subst hr
      rw [List.filter_cons_of_pos hx]
      rw [List.filter_cons_of_pos hx, List.length_cons] at hc
      have : (xs.filter p).length = 0 := by omega
      rw [List.length_eq_zero.mp this]
    · rw [List.find?_cons_of_neg _ hx] at h
      rw [List.filter_cons_of_neg hx]
      rw [List.filter_cons_of_neg hx] at hc
      exact ih h hc

theorem addTask_found (led : Ledger) (st : Date) (pj ds : String) (r : TaskRow)
    (h : led.tasks.find? (fun x => x.startDate == st) = some r) :
    addTask led st pj ds =
      (r.id, { led with tasks := led.tasks.map (fun x =>
        if x.startDate == st then
          { x with project := pj, description := ds } else x) }) := by
  unfold addTask
  rw [h]

theorem addTask_not_found (led : Ledger) (st : Date) (pj ds : String)
    (h : led.tasks.find? (fun x => x.startDate == st) = none) :
    addTask led st pj ds =
      (led.nextTaskId,
        ⟨led.tasks ++ [⟨led.nextTaskId, st, pj, ds⟩], led.nextTaskId + 1,
          led.entries⟩) := by
  unfold addTask
  rw [h]

/-- C9 (confirmed): upserting twice with the same start date and different
project/description, starting from a table satisfying the
one-row-per-start-date invariant, leaves exactly one row for that start date
carrying the second call's project and description, never inserts a
duplicate (the table size is unchanged by the second call), and the second
call returns the id of the pre-existing row. -/
theorem claim_C9_theorem (led : Ledger) (st : Date) (p1 d1 p2 d2 : String)
    (hcount : (led.tasks.filter (fun r => r.startDate == st)).length ≤ 1) :
    ((addTask (addTask led st p1 d1).2 st p2 d2).2.tasks.filter
        (fun r => r.startDate == st)) =
      [⟨(addTask led st p1 d1).1, st, p2, d2⟩] ∧
    (addTask (addTask led st p1 d1).2 st p2 d2).1 = (addTask led st p1 d1).1 ∧
    (addTask (addTask led st p1 d1).2 st p2 d2).2.tasks.length =
      (addTask led st p1 d1).2.tasks.length := by
  cases hfind : led.tasks.find? (fun x => x.startDate == st) with
  | some r =>
    have hq := List.find?_some hfind
    have hst : r.startDate = st := beq_iff_eq.mp hq
    have h1 := addTask_found led st p1 d1 r hfind
    have hfind2 : (led.tasks.map (fun x => if x.startDate == st then
        { x with project := p1, description := d1 } else x)).find?
        (fun x => x.startDate == st) =
        some { r with project := p1, description := d1 } :=
      find?_map_update (fun x : TaskRow => x.startDate == st)
        (fun x : TaskRow => { x with project := p1, description := d1 })
        (fun x => rfl) led.tasks r hfind
    have h2 := addTask_found (addTask led st p1 d1).2 st p2 d2
      { r with project := p1, description := d1 } (by rw [h1]; exact hfind2)
    rw [h2, h1]
    refine ⟨?_, rfl, ?_⟩
    · have hfil1 : led.tasks.filter (fun x => x.startDate == st) = [r] :=
        filter_singleton_of_find? _ _ _ hfind hcount
      show ((led.tasks.map (fun x => if x.startDate == st then
          { x with project := p1, description := d1 } else x)).map
          (fun x => if x.startDate == st then
          { x with project := p2, description := d2 } else x)).filter
          (fun x => x.startDate == st) = [⟨r.id, st, p2, d2⟩]
      rw [filter_map_update (fun x : TaskRow => x.startDate == st)
          (fun x : TaskRow => { x with project := p2, description := d2 })
          (fun x => rfl),
        filter_map_update (fun x : TaskRow => x.startDate == st)
          (fun x : TaskRow => { x with project := p1, description := d1 })
          (fun x => rfl),
        hfil1]
      show [(⟨r.id, r.startDate, p2, d2⟩ : TaskRow)] =
        [(⟨r.id, st, p2, d2⟩ : TaskRow)]
      rw [hst]
    · show ((led.tasks.map (fun x => if x.startDate == st then
          { x with project := p1, description := d1 } else x)).map
          (fun x => if x.startDate == st then
          { x with project := p2, description := d2 } else x)).length =
        (led.tasks.map (fun x => if x.startDate == st then
          { x with project := p1, description := d1 } else x)).length
      rw [List.length_map, List.length_map]
  | none =>
    have hforall0 : ∀ x ∈ led.tasks, (x.startDate == st) = false := by
      intro x hx
      have hne := List.find?_eq_none.mp hfind x hx
      cases hb : x.startDate == st with
      | true => exact absurd hb hne
      | false => rfl
    have h1 := addTask_not_found led st p1 d1 hfind
    have hfind2 : ((led.tasks ++ [(⟨led.nextTaskId, st, p1, d1⟩ : TaskRow)]).find?
        (fun x => x.startDate == st)) =
        some ⟨led.nextTaskId, st, p1, d1⟩ := by
      rw [find?_append_singleton (fun x : TaskRow => x.startDate == st)
        led.tasks ⟨led.nextTaskId, st, p1, d1⟩ hforall0,
        if_pos (beq_self_eq_true st)]
    have h2 := addTask_found (addTask led st p1 d1).2 st p2 d2
      ⟨led.nextTaskId, st, p1, d1⟩ (by rw [h1]; exact hfind2)
    rw [h2, h1]
    refine ⟨?_, rfl, ?_⟩
    · have hnil : List.filter (fun x : TaskRow => x.startDate == st)
          led.tasks = [] :=
        List.filter_eq_nil_iff.mpr
          (fun a ha h => Bool.false_ne_true ((hforall0 a ha).symm.trans h))
      have hpos : (fun x : TaskRow => x.startDate == st)
          (⟨led.nextTaskId, st, p1, d1⟩ : TaskRow) = true :=
        beq_self_eq_true st
      have hfone : List.filter (fun x : TaskRow => x.startDate == st)
          [(⟨led.nextTaskId, st, p1, d1⟩ : TaskRow)] =
          [(⟨led.nextTaskId, st, p1, d1⟩ : TaskRow)] := by
        have hstep := @List.filter_cons_of_pos TaskRow
          (fun x => x.startDate == st) ⟨led.nextTaskId, st, p1, d1⟩ [] hpos
        exact hstep
      show ((led.tasks ++ [(⟨led.nextTaskId, st, p1, d1⟩ : TaskRow)]).map
          (fun x => if x.startDate == st then
          { x with project := p2, description := d2 } else x)).filter
          (fun x => x.startDate == st) = [⟨led.nextTaskId, st, p2, d2⟩]
      rw [filter_map_update (fun x : TaskRow => x.startDate == st)
          (fun x : TaskRow => { x with project := p2, description := d2 })
          (fun x => rfl),
        List.filter_append, hnil, hfone]
      rfl
    · show ((led.tasks ++ [(⟨led.nextTaskId, st, p1, d1⟩ : TaskRow)]).map
          (fun x => if x.startDate == st then
          { x with project := p2, description := d2 } else x)).length =
        (led.tasks ++ [(⟨led.nextTaskId, st, p1, d1⟩ : TaskRow)]).length
      rw [List.length_map]

/-- C9 witness: two upserts on an empty table — one row remains, with the
second call's project and description, and the second call returns the id
the first insert produced. -/
theorem claim_C9_witness :
    (((addTask (addTask ledger0 ⟨2025, 3, 1⟩ "projA" "descA").2
        ⟨2025, 3, 1⟩ "projB" "descB").2.tasks.filter
        (fun r => r.startDate == ⟨2025, 3, 1⟩)) =
      [⟨(addTask ledger0 ⟨2025, 3, 1⟩ "projA" "descA").1, ⟨2025, 3, 1⟩,
        "projB", "descB"⟩] ∧
    (addTask (addTask ledger0 ⟨2025, 3, 1⟩ "projA" "descA").2
        ⟨2025, 3, 1⟩ "projB" "descB").1 =
      (addTask ledger0 ⟨2025, 3, 1⟩ "projA" "descA").1 ∧
    (addTask (addTask ledger0 ⟨2025, 3, 1⟩ "projA" "descA").2
        ⟨2025, 3, 1⟩ "projB" "descB").2.tasks.length =
      (addTask ledger0 ⟨2025, 3, 1⟩ "projA" "descA").2.tasks.length) ∧
    (addTask (addTask ledger0 ⟨2025, 3, 1⟩ "projA" "descA").2
        ⟨2025, 3, 1⟩ "projB" "descB").2.tasks =
      [⟨1, ⟨2025, 3, 1⟩, "projB", "descB"⟩] :=
  ⟨claim_C9_theorem ledger0 ⟨2025, 3, 1⟩ "projA" "descA" "projB" "descB"
    (by decide), by decide⟩

end ClockifyAutoFill
